import Mathlib

set_option maxHeartbeats 1000000

/-!
Verification of `digest.py`, a CLI utility that concatenates the text files of a
directory tree into a single digest file.

The filesystem is modelled as the flat list of entries that `os.walk` would
enumerate, in enumeration order.  Each entry records the attributes the program
inspects: its full path, its path relative to the scanned root, its suffix,
whether it is a regular file, whether `stat` succeeds during the scan and during
sorting, and its `st_ctime` / `st_mtime` values.

Python strings are modelled as Lean `String`s; Python's string comparison is
lexicographic on Unicode code points and is modelled by the structurally
recursive `charListLe` on the character list, and `str.lower()` by a
character-wise `Char.toLower`.
-/

/-- Python's `str.lower()`, applied character by character. -/
def lowerStr (s : String) : String := ⟨s.data.map Char.toLower⟩

/-- Lexicographic `≤` on code-point lists: Python's `<=` on `str`. -/
def charListLe : List Char → List Char → Bool
  | [], _ => true
  | _ :: _, [] => false
  | a :: as, b :: bs => if a < b then true else if b < a then false else charListLe as bs

/-- Python's `<=` on `str` values, used when sorting paths by name. -/
def pathLe (a b : String) : Bool := charListLe a.data b.data

/-- The three values accepted by the `--sort-by` option of `digest.py`. -/
inductive SortBy
  | name
  | ctime
  | mtime
  deriving DecidableEq, Repr

/-- A directory entry as seen by `os.walk` inside `find_text_files`.
`path` models `str(file_path)` (the full path), `relPath` models
`file_path.relative_to(base_dir)`, `suffix` models `file_path.suffix`.
`isFile` models the result of `file_path.is_file()`; `scanStatOk` models whether
the `file_path.stat()` call at scan time succeeds, and `sortStatOk` whether the
`p.stat()` call made by the `ctime`/`mtime` sort key functions succeeds.
`ctime` and `mtime` model `st_ctime` and `st_mtime`. -/
structure FSFile where
  path : String
  relPath : String
  suffix : String
  isFile : Bool
  scanStatOk : Bool
  sortStatOk : Bool
  ctime : Int
  mtime : Int
  deriving DecidableEq, Repr

/-- The scan loop of `find_text_files` (digest.py lines 71-94): keep an entry
iff its lowercased suffix is in the extension list, `is_file()` returns true,
and the early `stat()` call succeeds.  The result keeps `os.walk` order. -/
def matchedFiles (fs : List FSFile) (exts : List String) : List FSFile :=
  fs.filter (fun f => exts.contains (lowerStr f.suffix) && f.isFile && f.scanStatOk)

/-- Python's `list.sort(reverse=rev)` with a boolean comparison `c`: a stable
sort.  With `reverse=True` CPython orders distinct keys in descending order
while still keeping ties in their original order, which is the stable sort for
the flipped comparison. -/
def pySort {α : Type} (c : α → α → Bool) (rev : Bool) (l : List α) : List α :=
  if rev then List.insertionSort (fun a b => c b a = true) l
  else List.insertionSort (fun a b => c a b = true) l

/-- The comparison performed by Python's sort for the key returned by
`get_sort_key_function` (digest.py lines 29-49): `name` compares `str(p)`,
`ctime` compares `p.stat().st_ctime`, `mtime` compares `p.stat().st_mtime`. -/
def cmpOf : SortBy → FSFile → FSFile → Bool
  | .name, a, b => pathLe a.path b.path
  | .ctime, a, b => a.ctime ≤ b.ctime
  | .mtime, a, b => a.mtime ≤ b.mtime

/-- The sort key of an entry as a value, for statements about equal or distinct
keys: `name` keys are the full path, `ctime`/`mtime` keys the timestamps. -/
def sortKeyVal : SortBy → FSFile → String ⊕ Int
  | .name, f => Sum.inl f.path
  | .ctime, f => Sum.inr f.ctime
  | .mtime, f => Sum.inr f.mtime

/-- Whether evaluating the sort key raises no exception: the `name` key never
touches the filesystem, while `ctime`/`mtime` call `p.stat()` on every entry
(CPython computes the key of every element before comparing any). -/
def sortStatAvailable : SortBy → List FSFile → Bool
  | .name, _ => true
  | .ctime, l => l.all (fun f => f.sortStatOk)
  | .mtime, l => l.all (fun f => f.sortStatOk)

/-- `find_text_files` (digest.py lines 52-123): scan, then return `[]` when
nothing matched, else sort by the requested key; if evaluating the key raises,
fall back to sorting the whole batch by full path name with the same `reverse`
flag (lines 105-121). -/
def findTextFiles (fs : List FSFile) (exts : List String) (sb : SortBy)
    (rev : Bool) : List FSFile :=
  let found := matchedFiles fs exts
  if found.isEmpty then []
  else if sortStatAvailable sb found then pySort (cmpOf sb) rev found
  else pySort (cmpOf .name) rev found

/-- Messages printed to `sys.stderr`, identified by their content. -/
inductive StderrMsg
  | skippingNonFile (path : String)
  | couldNotStat (path : String)
  | errorDuringSorting
  | decodeWarning (path : String)
  | couldNotRead (path : String)
  | unexpectedReadError (path : String)
  deriving DecidableEq, Repr

/-- The stderr lines emitted for one scanned entry (digest.py lines 84-94):
a `Skipping non-file entry` line when `is_file()` is false, a
`Warning: Could not access or stat file` line when `stat()` raises. -/
def scanStderr (exts : List String) (f : FSFile) : List StderrMsg :=
  if exts.contains (lowerStr f.suffix) then
    if f.isFile then
      if f.scanStatOk then [] else [.couldNotStat f.path]
    else [.skippingNonFile f.path]
  else []

/-- All stderr lines of `find_text_files`: the per-entry scan warnings followed
by the `Error during sorting: ...` line printed (digest.py lines 110-114) when
the sort key raises and the name fallback runs. -/
def findTextFilesStderr (fs : List FSFile) (exts : List String) (sb : SortBy) :
    List StderrMsg :=
  fs.flatMap (scanStderr exts) ++
    (if (matchedFiles fs exts).isEmpty then []
     else if sortStatAvailable sb (matchedFiles fs exts) then []
     else [.errorDuringSorting])

/-- `SEPARATOR = "=" * 80` (digest.py line 26). -/
def SEPARATOR : String := ⟨List.replicate 80 '='⟩

/-- The outcome of opening and reading one matched file inside
`write_file_contents`: success with the decoded content (undecodable bytes
already replaced, thanks to `errors="replace"`), or one of the three caught
exception classes (digest.py lines 225-254). -/
inductive ReadResult
  | ok (content : String)
  | decodeErr
  | ioErr (msg : String)
  | otherErr (msg : String)
  deriving DecidableEq, Repr

/-- `display_path = f"/{relative_path}"` (digest.py line 219). -/
def displayPath (f : FSFile) : String := "/" ++ f.relPath

/-- Python's `content.endswith("\n")`. -/
def endsWithNl (s : String) : Bool := s.data.getLast? == some '\n'

/-- The inline placeholder for a `UnicodeDecodeError` (digest.py line 238). -/
def decodeErrText (dp : String) : String :=
  "[Error: Could not decode file " ++ dp ++
    " as UTF-8. Content might be garbled or replaced.]\n\n"

/-- The inline placeholder for an `IOError` (digest.py line 245). -/
def ioErrText (dp : String) (e : String) : String :=
  "[Error: Could not read file " ++ dp ++ ": " ++ e ++ "]\n\n"

/-- The inline placeholder for any other exception (digest.py line 249). -/
def otherErrText (dp : String) (e : String) : String :=
  "[Error: An unexpected error occurred reading file " ++ dp ++ ": " ++ e ++
    "]\n\n"

/-- What the body of a file block contains after the two header separators:
the file content followed by a newline when the content is nonempty and does
not already end in one, plus one blank spacing line — or the inline error
placeholder (digest.py lines 229-250). -/
def blockBody (dp : String) : ReadResult → String
  | .ok c => c ++ (if !c.data.isEmpty && !endsWithNl c then "\n" else "") ++ "\n"
  | .decodeErr => decodeErrText dp
  | .ioErr e => ioErrText dp e
  | .otherErr e => otherErrText dp e

/-- One complete file block as written by the loop body of
`write_file_contents` (digest.py lines 216-254): separator line, `File:`
header line, separator line, then the body. -/
def fileBlockStr (f : FSFile) (r : ReadResult) : String :=
  SEPARATOR ++ "\n" ++ "File: " ++ displayPath f ++ "\n" ++ SEPARATOR ++ "\n" ++
    blockBody (displayPath f) r

/-- The stderr warnings the per-file error handlers print
(digest.py lines 240-254). -/
def readStderr (f : FSFile) : ReadResult → List StderrMsg
  | .ok _ => []
  | .decodeErr => [.decodeWarning f.path]
  | .ioErr _ => [.couldNotRead f.path]
  | .otherErr _ => [.unexpectedReadError f.path]

/-- `write_file_contents` (digest.py lines 206-257) as a fold over the matched
files: the text appended to the output file and the stderr lines, in order.
Each iteration handles its own errors and the loop always continues with the
next file. -/
def writeFileContents : List (FSFile × ReadResult) → String × List StderrMsg
  | [] => ("", [])
  | fr :: rest =>
    let done := writeFileContents rest
    (fileBlockStr fr.1 fr.2 ++ done.1, readStderr fr.1 fr.2 ++ done.2)

/-- `get_digest_info` (digest.py lines 177-203). -/
def getDigestInfo (exts : List String) (sb : SortBy) (rev : Bool) : String :=
  "Included extensions: " ++ String.intercalate ", " exts ++ "\n" ++
    (if rev then "Output below is sorted in reverse by "
     else "Output below is sorted by ") ++
    (match sb with
     | .name => "filename."
     | .ctime => "creation time."
     | .mtime => "time last modified.")

/-- The sections `create_digest` writes into the output file, in order
(digest.py lines 290-311). -/
inductive DigestItem
  | dirHeader
  | treeSection (tree : String)
  | infoSection (info : String)
  | fileEntry (f : FSFile) (r : ReadResult)
  | noFilesNotice
  deriving DecidableEq, Repr

/-- The exact text each section contributes to the output file. -/
def renderItem : DigestItem → String
  | .dirHeader => "Directory structure:\n"
  | .treeSection t => t ++ "\n"
  | .infoSection i => i ++ "\n\n"
  | .fileEntry f r => fileBlockStr f r
  | .noFilesNotice =>
    SEPARATOR ++ "\n" ++
      "No files matching the specified extensions were found.\n" ++
      SEPARATOR ++ "\n"

/-- The sequence of sections `create_digest` writes (digest.py lines 290-311):
the `Directory structure:` header, the captured tree output, the info line,
then one file block per found file — or the explicit notice when nothing was
found.  `tree` is the text returned by `get_tree_output` and `reads` gives the
outcome of reading each file. -/
def createDigestItems (tree : String) (exts : List String) (sb : SortBy)
    (rev : Bool) (found : List FSFile) (reads : FSFile → ReadResult) :
    List DigestItem :=
  [.dirHeader, .treeSection tree, .infoSection (getDigestInfo exts sb rev)] ++
    (if found.isEmpty then [.noFilesNotice]
     else found.map fun f => .fileEntry f (reads f))

/-- The full text of the digest file. -/
def createDigestOutput (tree : String) (exts : List String) (sb : SortBy)
    (rev : Bool) (found : List FSFile) (reads : FSFile → ReadResult) : String :=
  String.join ((createDigestItems tree exts sb rev found reads).map renderItem)

/-- The observable actions `create_digest` performs on the output file and on
the external world, in program order. -/
inductive Event
  | openOutput
  | writeOut (s : String)
  | runTreeCmd
  | closeOutput
  deriving DecidableEq, Repr

/-- The `outfile.write` calls of one iteration of `write_file_contents`
(digest.py lines 221-250). -/
def blockEvents (f : FSFile) (r : ReadResult) : List Event :=
  [.writeOut (SEPARATOR ++ "\n"),
   .writeOut ("File: " ++ displayPath f ++ "\n"),
   .writeOut (SEPARATOR ++ "\n")] ++
    (match r with
     | .ok c =>
       [.writeOut c] ++
         (if !c.data.isEmpty && !endsWithNl c then [.writeOut "\n"] else []) ++
         [.writeOut "\n"]
     | .decodeErr => [.writeOut (decodeErrText (displayPath f))]
     | .ioErr e => [.writeOut (ioErrText (displayPath f) e)]
     | .otherErr e => [.writeOut (otherErrText (displayPath f) e)])

/-- The ordered event trace of `create_digest` (digest.py lines 290-311): the
output file is opened, the section header `"Directory structure:\n"` is
written, then `get_tree_output` runs the `tree` subprocess to completion, and
only then are the tree text, info line and file blocks written. -/
def createDigestEvents (tree : String) (exts : List String) (sb : SortBy)
    (rev : Bool) (found : List FSFile) (reads : FSFile → ReadResult) :
    List Event :=
  [.openOutput, .writeOut "Directory structure:\n", .runTreeCmd,
   .writeOut tree, .writeOut "\n", .writeOut (getDigestInfo exts sb rev),
   .writeOut "\n\n"] ++
    (if found.isEmpty then
      [.writeOut (SEPARATOR ++ "\n"),
       .writeOut "No files matching the specified extensions were found.\n",
       .writeOut (SEPARATOR ++ "\n")]
     else found.flatMap fun f => blockEvents f (reads f)) ++
    [.closeOutput]

/-- `needle` occurs as a contiguous substring of `hay`. -/
def substr (needle hay : String) : Prop := ∃ p s : String, hay = p ++ needle ++ s

/-- Recognizes the `Directory structure:` header section. -/
def isDirHeader : DigestItem → Bool
  | .dirHeader => true
  | _ => false

/-- Recognizes a file block section. -/
def isFileEntry : DigestItem → Bool
  | .fileEntry _ _ => true
  | _ => false

/-- Recognizes the `no files found` notice section. -/
def isNoFilesNotice : DigestItem → Bool
  | .noFilesNotice => true
  | _ => false

theorem charListLe_cons (a b : Char) (as bs : List Char) :
    charListLe (a :: as) (b :: bs) =
      if a < b then true else if b < a then false else charListLe as bs := rfl

theorem charListLe_cons_iff {a b : Char} {as bs : List Char} :
    charListLe (a :: as) (b :: bs) = true ↔
      a < b ∨ (a = b ∧ charListLe as bs = true) := by
  rw [charListLe_cons]
  split_ifs with h1 h2
  · simp [h1]
  · constructor
    · intro h; exact absurd h (by simp)
    · rintro (h | ⟨rfl, _⟩)
      · exact absurd h h1
      · exact absurd h2 (lt_irrefl a)
  · have heq : a = b := le_antisymm (not_lt.mp h2) (not_lt.mp h1)
    simp [h1, heq]

theorem charListLe_refl : ∀ a : List Char, charListLe a a = true := by
  intro a
  induction a with
  | nil => rfl
  | cons x xs ih => exact charListLe_cons_iff.mpr (Or.inr ⟨rfl, ih⟩)

theorem charListLe_total : ∀ a b : List Char,
    charListLe a b = true ∨ charListLe b a = true := by
  intro a
  induction a with
  | nil => intro b; exact Or.inl rfl
  | cons x xs ih =>
    intro b
    cases b with
    | nil => exact Or.inr rfl
    | cons y ys =>
      rcases lt_trichotomy x y with h | h | h
      · exact Or.inl (charListLe_cons_iff.mpr (Or.inl h))
      · rcases ih ys with h' | h'
        · exact Or.inl (charListLe_cons_iff.mpr (Or.inr ⟨h, h'⟩))
        · exact Or.inr (charListLe_cons_iff.mpr (Or.inr ⟨h.symm, h'⟩))
      · exact Or.inr (charListLe_cons_iff.mpr (Or.inl h))

theorem charListLe_antisymm : ∀ a b : List Char,
    charListLe a b = true → charListLe b a = true → a = b := by
  intro a
  induction a with
  | nil =>
    intro b h1 h2
    cases b with
    | nil => rfl
    | cons y ys => exact absurd h2 (by simp [charListLe])
  | cons x xs ih =>
    intro b h1 h2
    cases b with
    | nil => exact absurd h1 (by simp [charListLe])
    | cons y ys =>
      rcases charListLe_cons_iff.mp h1 with h | ⟨rfl, hr1⟩
      · rcases charListLe_cons_iff.mp h2 with h' | ⟨heq, _⟩
        · exact absurd (lt_trans h h') (lt_irrefl _)
        · exact absurd (heq ▸ h) (lt_irrefl _)
      · rcases charListLe_cons_iff.mp h2 with h' | ⟨_, hr2⟩
        · exact absurd h' (lt_irrefl _)
        · rw [ih ys hr1 hr2]

theorem charListLe_trans : ∀ a b c : List Char,
    charListLe a b = true → charListLe b c = true → charListLe a c = true := by
  intro a
  induction a with
  | nil => intro b c _ _; rfl
  | cons x xs ih =>
    intro b c h1 h2
    cases b with
    | nil => exact absurd h1 (by simp [charListLe])
    | cons y ys =>
      cases c with
      | nil => exact absurd h2 (by simp [charListLe])
      | cons z zs =>
        rcases charListLe_cons_iff.mp h1 with h | ⟨rfl, hr1⟩
        · rcases charListLe_cons_iff.mp h2 with h' | ⟨rfl, _⟩
          · exact charListLe_cons_iff.mpr (Or.inl (lt_trans h h'))
          · exact charListLe_cons_iff.mpr (Or.inl h)
        · rcases charListLe_cons_iff.mp h2 with h' | ⟨rfl, hr2⟩
          · exact charListLe_cons_iff.mpr (Or.inl h')
          · exact charListLe_cons_iff.mpr (Or.inr ⟨rfl, ih ys zs hr1 hr2⟩)

theorem pathLe_refl (a : String) : pathLe a a = true := charListLe_refl a.data

theorem pathLe_total (a b : String) : pathLe a b = true ∨ pathLe b a = true :=
  charListLe_total a.data b.data

theorem pathLe_antisymm {a b : String} (h1 : pathLe a b = true)
    (h2 : pathLe b a = true) : a = b := by
  cases a; cases b
  exact congrArg String.mk (charListLe_antisymm _ _ h1 h2)

theorem pathLe_trans {a b c : String} (h1 : pathLe a b = true)
    (h2 : pathLe b c = true) : pathLe a c = true :=
  charListLe_trans a.data b.data c.data h1 h2

theorem pathLe_false_ne {a b : String} (h : pathLe a b = false) : a ≠ b := by
  rintro rfl
  rw [pathLe_refl] at h
  cases h

theorem pySort_perm {α : Type} (c : α → α → Bool) (rev : Bool) (l : List α) :
    (pySort c rev l).Perm l := by
  cases rev with
  | false => exact List.perm_insertionSort _ l
  | true => exact List.perm_insertionSort _ l

theorem mem_pySort {α : Type} {c : α → α → Bool} {rev : Bool} {l : List α}
    {a : α} : a ∈ pySort c rev l ↔ a ∈ l :=
  (pySort_perm c rev l).mem_iff

theorem pySort_false_pairwise {α : Type} {c : α → α → Bool}
    (htot : ∀ a b, c a b = true ∨ c b a = true)
    (htrans : ∀ a b d, c a b = true → c b d = true → c a d = true)
    (l : List α) : (pySort c false l).Pairwise (fun a b => c a b = true) := by
  haveI : IsTotal α (fun a b => c a b = true) := ⟨htot⟩
  haveI : IsTrans α (fun a b => c a b = true) := ⟨htrans⟩
  exact List.sorted_insertionSort _ l

theorem pySort_true_pairwise {α : Type} {c : α → α → Bool}
    (htot : ∀ a b, c a b = true ∨ c b a = true)
    (htrans : ∀ a b d, c a b = true → c b d = true → c a d = true)
    (l : List α) : (pySort c true l).Pairwise (fun a b => c b a = true) := by
  haveI : IsTotal α (fun a b => c b a = true) := ⟨fun a b => (htot a b).symm⟩
  haveI : IsTrans α (fun a b => c b a = true) :=
    ⟨fun a b d h1 h2 => htrans d b a h2 h1⟩
  exact List.sorted_insertionSort _ l

theorem filter_orderedInsert_key {α κ : Type} [DecidableEq κ]
    {c : α → α → Bool} {K : α → κ}
    (hc : ∀ a b, c a b = false → K a ≠ K b) (x : α) (v : κ) (s : List α) :
    (List.orderedInsert (fun a b => c a b = true) x s).filter
        (fun a => decide (K a = v)) =
      (if K x = v then [x] else []) ++
        s.filter (fun a => decide (K a = v)) := by
  induction s with
  | nil =>
    by_cases hx : K x = v <;>
      simp [List.orderedInsert, List.filter_cons, hx]
  | cons y ys ih =>
    simp only [List.orderedInsert]
    by_cases hxy : c x y = true
    · rw [if_pos hxy]
      by_cases hx : K x = v <;> by_cases hy : K y = v <;>
        simp [List.filter_cons, hx, hy]
    · rw [if_neg hxy]
      have hxyf : c x y = false := by
        cases h : c x y
        · rfl
        · exact absurd h hxy
      have hne : K x ≠ K y := hc x y hxyf
      rw [List.filter_cons, ih]
      by_cases hy : K y = v
      · have hx : ¬K x = v := fun h => hne (h.trans hy.symm)
        simp [hy, hx]
      · simp [hy]

theorem filter_insertionSort_key {α κ : Type} [DecidableEq κ]
    {c : α → α → Bool} {K : α → κ}
    (hc : ∀ a b, c a b = false → K a ≠ K b) (v : κ) (l : List α) :
    (List.insertionSort (fun a b => c a b = true) l).filter
        (fun a => decide (K a = v)) =
      l.filter (fun a => decide (K a = v)) := by
  induction l with
  | nil => rfl
  | cons x xs ih =>
    simp only [List.insertionSort]
    rw [filter_orderedInsert_key hc x v _, ih, List.filter_cons]
    by_cases hx : K x = v <;> simp [hx]

theorem pySort_filter_key {α κ : Type} [DecidableEq κ]
    {c : α → α → Bool} {K : α → κ}
    (hc : ∀ a b, c a b = false → K a ≠ K b) (rev : Bool) (v : κ) (l : List α) :
    (pySort c rev l).filter (fun a => decide (K a = v)) =
      l.filter (fun a => decide (K a = v)) := by
  cases rev with
  | false => exact filter_insertionSort_key hc v l
  | true =>
    exact filter_insertionSort_key (c := fun a b => c b a) (K := K)
      (fun a b h => (hc b a h).symm) v l

theorem pySort_true_eq_reverse {α κ : Type} {c : α → α → Bool} {K : α → κ}
    (htot : ∀ a b, c a b = true ∨ c b a = true)
    (htrans : ∀ a b d, c a b = true → c b d = true → c a d = true)
    (htie : ∀ a b, c a b = true → c b a = true → K a = K b)
    (l : List α) (hdist : l.Pairwise fun a b => K a ≠ K b) :
    pySort c true l = (pySort c false l).reverse := by
  have hpF : (pySort c false l).Perm l := pySort_perm c false l
  have hpT : (pySort c true l).Perm l := pySort_perm c true l
  have hdF : (pySort c false l).Pairwise fun a b => K a ≠ K b :=
    (hpF.pairwise_iff fun h => h.symm).mpr hdist
  have hdT : (pySort c true l).Pairwise fun a b => K a ≠ K b :=
    (hpT.pairwise_iff fun h => h.symm).mpr hdist
  have hsF : (pySort c false l).Pairwise fun a b => c a b = true ∧ K a ≠ K b :=
    (pySort_false_pairwise htot htrans l).and hdF
  have hsTrev :
      ((pySort c true l).reverse).Pairwise
        fun a b => c a b = true ∧ K a ≠ K b := by
    rw [List.pairwise_reverse]
    exact (pySort_true_pairwise htot htrans l).and (hdT.imp fun h => h.symm)
  haveI : IsAntisymm α (fun a b => c a b = true ∧ K a ≠ K b) :=
    ⟨fun a b h1 h2 => absurd (htie a b h1.1 h2.1) h1.2⟩
  have heq : pySort c false l = (pySort c true l).reverse :=
    List.eq_of_perm_of_sorted
      (hpF.trans ((List.reverse_perm _).trans hpT).symm) hsF hsTrev
  rw [heq, List.reverse_reverse]

theorem cmpOf_total (sb : SortBy) (a b : FSFile) :
    cmpOf sb a b = true ∨ cmpOf sb b a = true := by
  cases sb
  · exact pathLe_total a.path b.path
  · simp only [cmpOf, decide_eq_true_eq]; exact le_total a.ctime b.ctime
  · simp only [cmpOf, decide_eq_true_eq]; exact le_total a.mtime b.mtime

theorem cmpOf_trans (sb : SortBy) (a b d : FSFile) (h1 : cmpOf sb a b = true)
    (h2 : cmpOf sb b d = true) : cmpOf sb a d = true := by
  cases sb
  · exact pathLe_trans h1 h2
  · simp only [cmpOf, decide_eq_true_eq] at *; exact le_trans h1 h2
  · simp only [cmpOf, decide_eq_true_eq] at *; exact le_trans h1 h2

theorem cmpOf_tie (sb : SortBy) (a b : FSFile) (h1 : cmpOf sb a b = true)
    (h2 : cmpOf sb b a = true) : sortKeyVal sb a = sortKeyVal sb b := by
  cases sb
  · exact congrArg Sum.inl (pathLe_antisymm h1 h2)
  · simp only [cmpOf, decide_eq_true_eq] at *
    exact congrArg Sum.inr (le_antisymm h1 h2)
  · simp only [cmpOf, decide_eq_true_eq] at *
    exact congrArg Sum.inr (le_antisymm h1 h2)

theorem cmpOf_false_ne (sb : SortBy) (a b : FSFile) (h : cmpOf sb a b = false) :
    sortKeyVal sb a ≠ sortKeyVal sb b := by
  cases sb
  · intro heq
    exact pathLe_false_ne h (Sum.inl.inj heq)
  · simp only [cmpOf, decide_eq_false_iff_not, not_le] at h
    intro heq
    exact absurd (Sum.inr.inj heq) (ne_of_gt h)
  · simp only [cmpOf, decide_eq_false_iff_not, not_le] at h
    intro heq
    exact absurd (Sum.inr.inj heq) (ne_of_gt h)

theorem mem_matchedFiles {fs : List FSFile} {exts : List String} {f : FSFile} :
    f ∈ matchedFiles fs exts ↔
      f ∈ fs ∧ lowerStr f.suffix ∈ exts ∧ f.isFile = true ∧
        f.scanStatOk = true := by
  simp [matchedFiles, List.mem_filter, and_assoc, List.elem_iff]

theorem sortStatAvailable_nil (sb : SortBy) : sortStatAvailable sb [] = true := by
  cases sb <;> rfl

theorem substr_of_eq {n p s hay : String} (h : hay = p ++ n ++ s) :
    substr n hay := ⟨p, s, h⟩

theorem substr_trans {a b c : String} (h1 : substr a b) (h2 : substr b c) :
    substr a c := by
  obtain ⟨p1, s1, rfl⟩ := h1
  obtain ⟨p2, s2, rfl⟩ := h2
  exact ⟨p2 ++ p1, s1 ++ s2, by simp [String.append_assoc]⟩

theorem substr_append_left {n a : String} (b : String) (h : substr n a) :
    substr n (a ++ b) := by
  obtain ⟨p, s, rfl⟩ := h
  exact ⟨p, s ++ b, by simp [String.append_assoc]⟩

theorem substr_append_right {n b : String} (a : String) (h : substr n b) :
    substr n (a ++ b) := by
  obtain ⟨p, s, rfl⟩ := h
  exact ⟨a ++ p, s, by simp [String.append_assoc]⟩

theorem substr_refl (s : String) : substr s s :=
  ⟨"", "", by simp⟩

theorem append_congr_lit {a b c d : String} (h : a ++ b = c ++ d)
    (t : String) : a ++ (b ++ t) = c ++ (d ++ t) := by
  rw [← String.append_assoc, h, String.append_assoc]

theorem append_split_lit {a c d : String} (h : a = c ++ d) (t : String) :
    a ++ t = c ++ (d ++ t) := by
  rw [h, String.append_assoc]

theorem append_merge_lit {a b e : String} (h : a ++ b = e) (t : String) :
    a ++ (b ++ t) = e ++ t := by
  rw [← String.append_assoc, h]

theorem substr_block_path (f : FSFile) (r : ReadResult) :
    substr ("File: /" ++ f.relPath) (fileBlockStr f r) := by
  refine substr_of_eq (p := SEPARATOR ++ "\n")
    (s := "\n" ++ SEPARATOR ++ "\n" ++ blockBody (displayPath f) r) ?_
  simp only [fileBlockStr, displayPath, String.append_assoc]
  exact congrArg (fun x => SEPARATOR ++ ("\n" ++ x))
    (append_merge_lit (by decide) _)

theorem substr_block_content (f : FSFile) (c : String) :
    substr c (fileBlockStr f (.ok c)) := by
  refine substr_of_eq
    (p := SEPARATOR ++ "\n" ++ "File: " ++ displayPath f ++ "\n" ++
      SEPARATOR ++ "\n")
    (s := (if !c.data.isEmpty && !endsWithNl c then "\n" else "") ++ "\n") ?_
  simp [fileBlockStr, blockBody, String.append_assoc]

theorem substr_errPrefix_blockBody (dp : String) (r : ReadResult)
    (h : ∀ c, r ≠ .ok c) : substr "[Error:" (blockBody dp r) := by
  cases r with
  | ok c => exact absurd rfl (h c)
  | decodeErr =>
    refine substr_of_eq (p := "")
      (s := " Could not decode file " ++ dp ++
        " as UTF-8. Content might be garbled or replaced.]\n\n") ?_
    simp only [blockBody, decodeErrText, String.append_assoc,
      String.empty_append]
    exact append_split_lit (by decide) _
  | ioErr e =>
    refine substr_of_eq (p := "")
      (s := " Could not read file " ++ dp ++ ": " ++ e ++ "]\n\n") ?_
    simp only [blockBody, ioErrText, String.append_assoc, String.empty_append]
    exact append_split_lit (by decide) _
  | otherErr e =>
    refine substr_of_eq (p := "")
      (s := " An unexpected error occurred reading file " ++ dp ++ ": " ++
        e ++ "]\n\n") ?_
    simp only [blockBody, otherErrText, String.append_assoc,
      String.empty_append]
    exact append_split_lit (by decide) _

theorem substr_block_err (f : FSFile) (r : ReadResult) (h : ∀ c, r ≠ .ok c) :
    substr "[Error:" (fileBlockStr f r) :=
  substr_append_right _ (substr_errPrefix_blockBody (displayPath f) r h)

theorem writeFileContents_block (l : List (FSFile × ReadResult)) :
    ∀ fr ∈ l, substr (fileBlockStr fr.1 fr.2) (writeFileContents l).1 := by
  induction l with
  | nil => simp
  | cons x xs ih =>
    intro fr hmem
    rcases List.mem_cons.mp hmem with rfl | hmem
    · exact substr_append_left _ (substr_refl _)
    · exact substr_append_right _ (ih fr hmem)

theorem writeFileContents_stderr (l : List (FSFile × ReadResult)) :
    ∀ fr ∈ l, ∀ m ∈ readStderr fr.1 fr.2, m ∈ (writeFileContents l).2 := by
  induction l with
  | nil => simp
  | cons x xs ih =>
    intro fr hmem m hm
    rcases List.mem_cons.mp hmem with rfl | hmem
    · exact List.mem_append_left _ hm
    · exact List.mem_append_right _ (ih fr hmem m hm)

theorem findTextFiles_of_empty {fs : List FSFile} {exts : List String}
    (sb : SortBy) (rev : Bool) (hemp : (matchedFiles fs exts).isEmpty = true) :
    findTextFiles fs exts sb rev = [] := by
  simp [findTextFiles, hemp]

theorem findTextFiles_eq_sort {fs : List FSFile} {exts : List String}
    (sb : SortBy) (rev : Bool) (hne : (matchedFiles fs exts).isEmpty = false)
    (hstat : sortStatAvailable sb (matchedFiles fs exts) = true) :
    findTextFiles fs exts sb rev = pySort (cmpOf sb) rev (matchedFiles fs exts) := by
  simp [findTextFiles, hne, hstat]

theorem findTextFiles_eq_fallback {fs : List FSFile} {exts : List String}
    (sb : SortBy) (rev : Bool) (hne : (matchedFiles fs exts).isEmpty = false)
    (hfail : sortStatAvailable sb (matchedFiles fs exts) = false) :
    findTextFiles fs exts sb rev =
      pySort (cmpOf .name) rev (matchedFiles fs exts) := by
  simp [findTextFiles, hne, hfail]

theorem isEmpty_false_of_statFail {fs : List FSFile} {exts : List String}
    {sb : SortBy}
    (hfail : sortStatAvailable sb (matchedFiles fs exts) = false) :
    (matchedFiles fs exts).isEmpty = false := by
  cases h : (matchedFiles fs exts).isEmpty with
  | false => rfl
  | true =>
    rw [List.isEmpty_iff.mp h, sortStatAvailable_nil] at hfail
    cases hfail

/-- C1 (amended): a file is returned by the scanner iff it is an enumerated
entry whose lowercased suffix is in the extension set, is a regular file, and
whose scan-time `stat()` succeeds; in particular every returned file has a
matching suffix, and no such *accessible* regular file is omitted.  (The
claim's stronger completeness part fails for regular files whose `stat()`
raises; see the counterexample.) -/
theorem scanner_sound_and_complete (fs : List FSFile) (exts : List String)
    (sb : SortBy) (rev : Bool) (f : FSFile) :
    f ∈ findTextFiles fs exts sb rev ↔
      f ∈ fs ∧ lowerStr f.suffix ∈ exts ∧ f.isFile = true ∧
        f.scanStatOk = true := by
  rw [← mem_matchedFiles]
  cases hemp : (matchedFiles fs exts).isEmpty with
  | true => rw [findTextFiles_of_empty sb rev hemp, List.isEmpty_iff.mp hemp]
  | false =>
    cases hstat : sortStatAvailable sb (matchedFiles fs exts) with
    | true => rw [findTextFiles_eq_sort sb rev hemp hstat]; exact mem_pySort
    | false =>
      rw [findTextFiles_eq_fallback sb rev hemp hstat]; exact mem_pySort

/-- C1 (counterexample): a regular file whose lowercase suffix is in the
extension set but whose scan-time `stat()` raises is omitted from the result,
so the claim "no regular file under D whose lowercase suffix is in E is
omitted" is false as stated. -/
theorem scanner_omits_inaccessible_file :
    (FSFile.mk "/d/a.txt" "a.txt" ".txt" true false true 0 0).isFile = true ∧
      lowerStr (FSFile.mk "/d/a.txt" "a.txt" ".txt" true false true 0 0).suffix ∈
        [".txt"] ∧
      findTextFiles [FSFile.mk "/d/a.txt" "a.txt" ".txt" true false true 0 0]
        [".txt"] .name false = [] := by
  decide

/-- C3 (counterexample): with two matched files whose `mtime` keys tie, the
reverse sort keeps the original order of the tied pair (Python's sort is
stable also with `reverse=True`), so it is *not* the exact reversal of the
forward ordering. -/
theorem reverse_sort_keeps_tie_order :
    findTextFiles
        [FSFile.mk "/d/a.txt" "a.txt" ".txt" true true true 1 7,
         FSFile.mk "/d/b.txt" "b.txt" ".txt" true true true 2 7]
        [".txt"] .mtime true ≠
      (findTextFiles
          [FSFile.mk "/d/a.txt" "a.txt" ".txt" true true true 1 7,
           FSFile.mk "/d/b.txt" "b.txt" ".txt" true true true 2 7]
          [".txt"] .mtime false).reverse := by
  decide

/-- C3 (amended): when the sort keys of the matched files are pairwise
distinct (and the key's stat calls succeed, so no fallback runs), the ordering
produced with the reverse flag is exactly the reversal of the forward
ordering for the same key; with tied keys both directions keep the original
enumeration order of the tie instead. -/
theorem reverse_flag_inverts_distinct_keys (fs : List FSFile)
    (exts : List String) (sb : SortBy)
    (hstat : sortStatAvailable sb (matchedFiles fs exts) = true)
    (hdist : (matchedFiles fs exts).Pairwise
      fun a b => sortKeyVal sb a ≠ sortKeyVal sb b) :
    findTextFiles fs exts sb true =
      (findTextFiles fs exts sb false).reverse := by
  cases hemp : (matchedFiles fs exts).isEmpty with
  | true => rw [findTextFiles_of_empty sb true hemp,
      findTextFiles_of_empty sb false hemp]; rfl
  | false =>
    rw [findTextFiles_eq_sort sb true hemp hstat,
      findTextFiles_eq_sort sb false hemp hstat]
    exact pySort_true_eq_reverse (cmpOf_total sb) (cmpOf_trans sb)
      (cmpOf_tie sb) _ hdist

theorem reverse_flag_inverts_distinct_keys_witness :
    sortStatAvailable .mtime
        (matchedFiles
          [FSFile.mk "/d/a.txt" "a.txt" ".txt" true true true 1 7,
           FSFile.mk "/d/b.txt" "b.txt" ".txt" true true true 2 9]
          [".txt"]) = true ∧
      (matchedFiles
          [FSFile.mk "/d/a.txt" "a.txt" ".txt" true true true 1 7,
           FSFile.mk "/d/b.txt" "b.txt" ".txt" true true true 2 9]
          [".txt"]).Pairwise
        (fun a b => sortKeyVal .mtime a ≠ sortKeyVal .mtime b) ∧
      findTextFiles
          [FSFile.mk "/d/a.txt" "a.txt" ".txt" true true true 1 7,
           FSFile.mk "/d/b.txt" "b.txt" ".txt" true true true 2 9]
          [".txt"] .mtime true =
        (findTextFiles
            [FSFile.mk "/d/a.txt" "a.txt" ".txt" true true true 1 7,
             FSFile.mk "/d/b.txt" "b.txt" ".txt" true true true 2 9]
            [".txt"] .mtime false).reverse :=
  ⟨by decide, by decide,
    reverse_flag_inverts_distinct_keys _ _ _ (by decide) (by decide)⟩

/-- C4: when evaluating the chosen stat-based sort key raises for some matched
entry, the whole batch is deterministically ordered exactly as a run with the
`name` key would order it, and the `Error during sorting` report appears on
the error stream. -/
theorem sort_key_error_name_fallback (fs : List FSFile) (exts : List String)
    (sb : SortBy) (rev : Bool)
    (hfail : sortStatAvailable sb (matchedFiles fs exts) = false) :
    findTextFiles fs exts sb rev = findTextFiles fs exts .name rev ∧
      StderrMsg.errorDuringSorting ∈ findTextFilesStderr fs exts sb := by
  have hne := isEmpty_false_of_statFail hfail
  constructor
  · rw [findTextFiles_eq_fallback sb rev hne hfail,
      findTextFiles_eq_sort .name rev hne rfl]
  · simp [findTextFilesStderr, hne, hfail]

theorem sort_key_error_name_fallback_witness :
    sortStatAvailable .ctime
        (matchedFiles
          [FSFile.mk "/d/b.txt" "b.txt" ".txt" true true false 5 5,
           FSFile.mk "/d/a.txt" "a.txt" ".txt" true true true 9 9]
          [".txt"]) = false ∧
      (findTextFiles
          [FSFile.mk "/d/b.txt" "b.txt" ".txt" true true false 5 5,
           FSFile.mk "/d/a.txt" "a.txt" ".txt" true true true 9 9]
          [".txt"] .ctime false =
        findTextFiles
          [FSFile.mk "/d/b.txt" "b.txt" ".txt" true true false 5 5,
           FSFile.mk "/d/a.txt" "a.txt" ".txt" true true true 9 9]
          [".txt"] .name false ∧
      StderrMsg.errorDuringSorting ∈
        findTextFilesStderr
          [FSFile.mk "/d/b.txt" "b.txt" ".txt" true true false 5 5,
           FSFile.mk "/d/a.txt" "a.txt" ".txt" true true true 9 9]
          [".txt"] .ctime) :=
  ⟨by decide, sort_key_error_name_fallback _ _ _ _ (by decide)⟩

/-- C8: the sort is stable — for every key value `v`, the subsequence of
returned files whose sort key equals `v` is exactly the subsequence of the
scanned (enumeration-ordered) matched files with that key, in the same
order; this holds for both directions of every key. -/
theorem stable_sort_preserves_tie_order (fs : List FSFile)
    (exts : List String) (sb : SortBy) (rev : Bool) (v : String ⊕ Int)
    (hstat : sortStatAvailable sb (matchedFiles fs exts) = true) :
    (findTextFiles fs exts sb rev).filter
        (fun f => decide (sortKeyVal sb f = v)) =
      (matchedFiles fs exts).filter
        (fun f => decide (sortKeyVal sb f = v)) := by
  cases hemp : (matchedFiles fs exts).isEmpty with
  | true => rw [findTextFiles_of_empty sb rev hemp, List.isEmpty_iff.mp hemp]
  | false =>
    rw [findTextFiles_eq_sort sb rev hemp hstat]
    exact pySort_filter_key (cmpOf_false_ne sb) rev v _

theorem stable_sort_preserves_tie_order_witness :
    sortStatAvailable .mtime
        (matchedFiles
          [FSFile.mk "/d/b.txt" "b.txt" ".txt" true true true 1 7,
           FSFile.mk "/d/a.txt" "a.txt" ".txt" true true true 2 7]
          [".txt"]) = true ∧
      (findTextFiles
          [FSFile.mk "/d/b.txt" "b.txt" ".txt" true true true 1 7,
           FSFile.mk "/d/a.txt" "a.txt" ".txt" true true true 2 7]
          [".txt"] .mtime true).filter
          (fun f => decide (sortKeyVal .mtime f = Sum.inr 7)) =
        (matchedFiles
            [FSFile.mk "/d/b.txt" "b.txt" ".txt" true true true 1 7,
             FSFile.mk "/d/a.txt" "a.txt" ".txt" true true true 2 7]
            [".txt"]).filter
          (fun f => decide (sortKeyVal .mtime f = Sum.inr 7)) :=
  ⟨by decide, stable_sort_preserves_tie_order _ _ _ _ _ (by decide)⟩

/-- C10: when the primary sort fails and the name fallback runs with the
reverse flag set, the fallback ordering is descending by full path — the exact
reversal of the ascending name ordering (full paths are pairwise distinct). -/
theorem fallback_respects_reverse (fs : List FSFile) (exts : List String)
    (sb : SortBy)
    (hfail : sortStatAvailable sb (matchedFiles fs exts) = false)
    (hdist : (matchedFiles fs exts).Pairwise fun a b => a.path ≠ b.path) :
    findTextFiles fs exts sb true =
      (findTextFiles fs exts .name false).reverse := by
  have hne := isEmpty_false_of_statFail hfail
  rw [findTextFiles_eq_fallback sb true hne hfail,
    findTextFiles_eq_sort .name false hne rfl]
  exact pySort_true_eq_reverse (K := fun f => f.path) (cmpOf_total .name)
    (cmpOf_trans .name)
    (fun a b h1 h2 => pathLe_antisymm (a := a.path) (b := b.path) h1 h2) _
    hdist

theorem fallback_respects_reverse_witness :
    sortStatAvailable .mtime
        (matchedFiles
          [FSFile.mk "/d/a.txt" "a.txt" ".txt" true true false 1 7,
           FSFile.mk "/d/b.txt" "b.txt" ".txt" true true true 2 9]
          [".txt"]) = false ∧
      (matchedFiles
          [FSFile.mk "/d/a.txt" "a.txt" ".txt" true true false 1 7,
           FSFile.mk "/d/b.txt" "b.txt" ".txt" true true true 2 9]
          [".txt"]).Pairwise (fun a b => a.path ≠ b.path) ∧
      findTextFiles
          [FSFile.mk "/d/a.txt" "a.txt" ".txt" true true false 1 7,
           FSFile.mk "/d/b.txt" "b.txt" ".txt" true true true 2 9]
          [".txt"] .mtime true =
        (findTextFiles
            [FSFile.mk "/d/a.txt" "a.txt" ".txt" true true false 1 7,
             FSFile.mk "/d/b.txt" "b.txt" ".txt" true true true 2 9]
            [".txt"] .name false).reverse :=
  ⟨by decide, by decide, fallback_respects_reverse _ _ _ (by decide) (by decide)⟩

/-- C2: every run writes exactly one `Directory structure:` section and, for N
matched files, exactly N file blocks; each block contains the file's
root-relative path (as `File: /<relative-path>`) and either the file's full
content or an inline `[Error:` placeholder. -/
theorem digest_structure (tree : String) (exts : List String) (sb : SortBy)
    (rev : Bool) (found : List FSFile) (reads : FSFile → ReadResult) :
    (createDigestItems tree exts sb rev found reads).countP isDirHeader = 1 ∧
      (createDigestItems tree exts sb rev found reads).countP isFileEntry =
        found.length ∧
      ∀ f ∈ found,
        DigestItem.fileEntry f (reads f) ∈
            createDigestItems tree exts sb rev found reads ∧
          substr ("File: /" ++ f.relPath)
            (renderItem (.fileEntry f (reads f))) ∧
          (∀ content, reads f = .ok content →
            substr content (renderItem (.fileEntry f (reads f)))) ∧
          ((∀ content, reads f ≠ .ok content) →
            substr "[Error:" (renderItem (.fileEntry f (reads f)))) := by
  refine ⟨?_, ?_, ?_⟩
  · cases h : found.isEmpty with
    | true =>
      rw [List.isEmpty_iff.mp h]
      simp [createDigestItems, isDirHeader, List.countP_cons]
    | false =>
      simp [createDigestItems, h, isDirHeader, List.countP_append,
        List.countP_cons, List.countP_map, Function.comp]
  · cases h : found.isEmpty with
    | true =>
      rw [List.isEmpty_iff.mp h]
      simp [createDigestItems, isFileEntry, List.countP_cons]
    | false =>
      simp [createDigestItems, h, isFileEntry, List.countP_append,
        List.countP_cons, List.countP_map, Function.comp]
  · intro f hf
    have hne : found.isEmpty = false := by
      cases found with
      | nil => cases hf
      | cons a l => rfl
    refine ⟨?_, substr_block_path f (reads f), ?_, ?_⟩
    · simp only [createDigestItems, hne, Bool.false_eq_true, if_false,
        List.mem_append]
      exact Or.inr (List.mem_map_of_mem _ hf)
    · intro content hc
      rw [hc]
      exact substr_block_content f content
    · intro herr
      exact substr_block_err f (reads f) herr

theorem digest_structure_witness :
    DigestItem.fileEntry (FSFile.mk "/d/a.txt" "a.txt" ".txt" true true true 0 0)
        ((fun _ => ReadResult.ok "hi")
          (FSFile.mk "/d/a.txt" "a.txt" ".txt" true true true 0 0)) ∈
        createDigestItems "T" [".txt"] .name false
          [FSFile.mk "/d/a.txt" "a.txt" ".txt" true true true 0 0]
          (fun _ => ReadResult.ok "hi") ∧
      substr
        ("File: /" ++
          (FSFile.mk "/d/a.txt" "a.txt" ".txt" true true true 0 0).relPath)
        (renderItem
          (.fileEntry (FSFile.mk "/d/a.txt" "a.txt" ".txt" true true true 0 0)
            (ReadResult.ok "hi"))) ∧
      substr "hi"
        (renderItem
          (.fileEntry (FSFile.mk "/d/a.txt" "a.txt" ".txt" true true true 0 0)
            (ReadResult.ok "hi"))) :=
  match
    (digest_structure "T" [".txt"] .name false
          [FSFile.mk "/d/a.txt" "a.txt" ".txt" true true true 0 0]
          (fun _ => ReadResult.ok "hi")).2.2
      (FSFile.mk "/d/a.txt" "a.txt" ".txt" true true true 0 0)
      (by decide) with
  | ⟨hmem, hpath, hcontent, _⟩ => ⟨hmem, hpath, hcontent "hi" rfl⟩

/-- C5: every per-file error is caught — the failing file still gets its block
in the output, that block contains an inline `[Error:` placeholder, a warning
is emitted on the error stream — and processing continues: every matched file
(also those after a failure) has its complete block in the output. -/
theorem write_errors_recovered (l : List (FSFile × ReadResult)) :
    ∀ fr ∈ l,
      substr (fileBlockStr fr.1 fr.2) (writeFileContents l).1 ∧
        ((∀ c, fr.2 ≠ .ok c) →
          substr "[Error:" (writeFileContents l).1 ∧
            readStderr fr.1 fr.2 ≠ [] ∧
            ∀ m ∈ readStderr fr.1 fr.2, m ∈ (writeFileContents l).2) := by
  intro fr hmem
  refine ⟨writeFileContents_block l fr hmem, fun herr => ?_⟩
  refine ⟨substr_trans (substr_block_err fr.1 fr.2 herr)
    (writeFileContents_block l fr hmem), ?_,
    writeFileContents_stderr l fr hmem⟩
  cases hfr : fr.2 with
  | ok c => exact absurd hfr (herr c)
  | decodeErr => simp [readStderr]
  | ioErr e => simp [readStderr]
  | otherErr e => simp [readStderr]

theorem write_errors_recovered_witness :
    substr
        (fileBlockStr (FSFile.mk "/d/a.txt" "a.txt" ".txt" true true true 0 0)
          (ReadResult.ioErr "Permission denied"))
        (writeFileContents
            [(FSFile.mk "/d/a.txt" "a.txt" ".txt" true true true 0 0,
              ReadResult.ioErr "Permission denied"),
             (FSFile.mk "/d/b.txt" "b.txt" ".txt" true true true 0 0,
              ReadResult.ok "later file")]).1 ∧
      substr "[Error:"
        (writeFileContents
            [(FSFile.mk "/d/a.txt" "a.txt" ".txt" true true true 0 0,
              ReadResult.ioErr "Permission denied"),
             (FSFile.mk "/d/b.txt" "b.txt" ".txt" true true true 0 0,
              ReadResult.ok "later file")]).1 ∧
      readStderr (FSFile.mk "/d/a.txt" "a.txt" ".txt" true true true 0 0)
          (ReadResult.ioErr "Permission denied") ≠ [] ∧
      ∀ m ∈ readStderr (FSFile.mk "/d/a.txt" "a.txt" ".txt" true true true 0 0)
          (ReadResult.ioErr "Permission denied"),
        m ∈ (writeFileContents
            [(FSFile.mk "/d/a.txt" "a.txt" ".txt" true true true 0 0,
              ReadResult.ioErr "Permission denied"),
             (FSFile.mk "/d/b.txt" "b.txt" ".txt" true true true 0 0,
              ReadResult.ok "later file")]).2 :=
  match
    write_errors_recovered
        [(FSFile.mk "/d/a.txt" "a.txt" ".txt" true true true 0 0,
          ReadResult.ioErr "Permission denied"),
         (FSFile.mk "/d/b.txt" "b.txt" ".txt" true true true 0 0,
          ReadResult.ok "later file")]
        (FSFile.mk "/d/a.txt" "a.txt" ".txt" true true true 0 0,
          ReadResult.ioErr "Permission denied")
        (by decide) with
  | ⟨hblock, herr⟩ =>
    match herr (fun c h => ReadResult.noConfusion h) with
    | ⟨hph, hnz, hmsg⟩ => ⟨hblock, hph, hnz, hmsg⟩

theorem blockEvents_no_tree (f : FSFile) (r : ReadResult) :
    Event.runTreeCmd ∉ blockEvents f r := by
  cases r with
  | ok c =>
    by_cases h : (!c.data.isEmpty && !endsWithNl c) = true <;>
      simp [blockEvents, h]
  | decodeErr => simp [blockEvents]
  | ioErr e => simp [blockEvents]
  | otherErr e => simp [blockEvents]

/-- C6 (counterexample): the event trace of `create_digest` writes the section
header `"Directory structure:\n"` to the output file *before* running the
`tree` subprocess (digest.py lines 293-294), so the claim that the subprocess
completes before any byte is written to the output file is false. -/
theorem write_precedes_tree_subprocess :
    ∃ pre post : List Event,
      createDigestEvents "T" [".txt"] .name false []
          (fun _ => ReadResult.ok "") =
          pre ++ [Event.runTreeCmd] ++ post ∧
        Event.writeOut "Directory structure:\n" ∈ pre := by
  refine ⟨[.openOutput, .writeOut "Directory structure:\n"],
    [.writeOut "T", .writeOut "\n",
     .writeOut (getDigestInfo [".txt"] .name false), .writeOut "\n\n",
     .writeOut (SEPARATOR ++ "\n"),
     .writeOut "No files matching the specified extensions were found.\n",
     .writeOut (SEPARATOR ++ "\n"), .closeOutput], rfl, ?_⟩
  simp

/-- C6 (amended): the `tree` subprocess runs to completion before any byte
other than the initial `"Directory structure:\n"` section header is written:
the trace always starts with open, the header write, and the completed
subprocess, and the subprocess never runs again later. -/
theorem tree_completes_before_content_writes (tree : String)
    (exts : List String) (sb : SortBy) (rev : Bool) (found : List FSFile)
    (reads : FSFile → ReadResult) :
    ∃ rest : List Event,
      createDigestEvents tree exts sb rev found reads =
          [.openOutput, .writeOut "Directory structure:\n", .runTreeCmd] ++
            rest ∧
        Event.runTreeCmd ∉ rest := by
  refine ⟨[.writeOut tree, .writeOut "\n", .writeOut (getDigestInfo exts sb rev),
    .writeOut "\n\n"] ++
      (if found.isEmpty then
        [.writeOut (SEPARATOR ++ "\n"),
         .writeOut "No files matching the specified extensions were found.\n",
         .writeOut (SEPARATOR ++ "\n")]
       else found.flatMap fun f => blockEvents f (reads f)) ++
      [.closeOutput], rfl, ?_⟩
  intro habs
  rcases List.mem_append.mp habs with h | h
  · rcases List.mem_append.mp h with h | h
    · simp at h
    · cases hf : found.isEmpty with
      | true => rw [hf] at h; simp at h
      | false =>
        rw [hf] at h
        simp only [Bool.false_eq_true, if_false, List.mem_flatMap] at h
        obtain ⟨f, _, habs'⟩ := h
        exact blockEvents_no_tree f (reads f) habs'
  · simp at h

/-- C7: when zero files match, the digest contains exactly one explicit
`no files found` notice section, zero file blocks, and the notice text appears
in the output. -/
theorem empty_match_notice (tree : String) (exts : List String) (sb : SortBy)
    (rev : Bool) (reads : FSFile → ReadResult) :
    (createDigestItems tree exts sb rev [] reads).countP isNoFilesNotice = 1 ∧
      (createDigestItems tree exts sb rev [] reads).countP isFileEntry = 0 ∧
      substr "No files matching the specified extensions were found.\n"
        (createDigestOutput tree exts sb rev [] reads) := by
  refine ⟨?_, ?_, ?_⟩
  · simp [createDigestItems, isNoFilesNotice, List.countP_cons]
  · simp [createDigestItems, isFileEntry, List.countP_cons]
  · refine substr_of_eq
      (p := "Directory structure:\n" ++ (tree ++ "\n") ++
        (getDigestInfo exts sb rev ++ "\n\n") ++ (SEPARATOR ++ "\n"))
      (s := SEPARATOR ++ "\n") ?_
    simp [createDigestOutput, createDigestItems, renderItem, String.join,
      String.append_assoc]

/-- C9: every file block written to the digest consists of an 80-character
`=` separator line, a `File: /<relative-path>` header line with the path
relative to the scanned root and prefixed by `/`, a second 80-character `=`
separator line, and then the file's raw content (followed only by the
normalizing newline padding). -/
theorem file_block_format (f : FSFile) (c : String) :
    SEPARATOR.length = 80 ∧ (∀ ch ∈ SEPARATOR.data, ch = '=') ∧
      ∃ pad : String, (pad = "\n" ∨ pad = "\n\n") ∧
        fileBlockStr f (.ok c) =
          SEPARATOR ++ "\n" ++ ("File: /" ++ f.relPath) ++ "\n" ++ SEPARATOR ++
            "\n" ++ c ++ pad := by
  refine ⟨by decide, by decide, ?_⟩
  by_cases h : (!c.data.isEmpty && !endsWithNl c) = true
  · refine ⟨"\n" ++ "\n", Or.inr (by decide), ?_⟩
    simp only [fileBlockStr, blockBody, displayPath, h, if_true,
      String.append_assoc]
    exact congrArg (fun x => SEPARATOR ++ ("\n" ++ x))
      (append_merge_lit (by decide) _)
  · have hf : (!c.data.isEmpty && !endsWithNl c) = false := by
      cases hb : (!c.data.isEmpty && !endsWithNl c)
      · rfl
      · exact absurd hb h
    refine ⟨"" ++ "\n", Or.inl (by decide), ?_⟩
    simp only [fileBlockStr, blockBody, displayPath, hf, Bool.false_eq_true,
      if_false, String.append_assoc]
    exact congrArg (fun x => SEPARATOR ++ ("\n" ++ x))
      (append_merge_lit (by decide) _)

example :
    findTextFiles
      [⟨"/d/b.txt", "b.txt", ".txt", true, true, true, 5, 5⟩,
       ⟨"/d/a.TXT", "a.TXT", ".TXT", true, true, true, 9, 9⟩,
       ⟨"/d/c.png", "c.png", ".png", true, true, true, 1, 1⟩]
      [".txt"] .name false =
      [⟨"/d/a.TXT", "a.TXT", ".TXT", true, true, true, 9, 9⟩,
       ⟨"/d/b.txt", "b.txt", ".txt", true, true, true, 5, 5⟩] := by
  decide

example :
    findTextFiles
      [⟨"/d/b.txt", "b.txt", ".txt", true, true, true, 5, 5⟩,
       ⟨"/d/a.txt", "a.txt", ".txt", true, true, false, 9, 9⟩]
      [".txt"] .mtime false =
      [⟨"/d/a.txt", "a.txt", ".txt", true, true, false, 9, 9⟩,
       ⟨"/d/b.txt", "b.txt", ".txt", true, true, true, 5, 5⟩] := by
  decide
